import Mathlib

set_option linter.unusedVariables false

/-!
Shallow embedding of the streaming, selector-scoped HTML capture and
mutation engine of netlands/sites-templates.

The engine lives in two evolutions inside the repository:
* `src/htmlparser.js` — the first revision (read path only); its
  definitions are embedded here with a `V1` suffix;
* the final revision embedded in `src/resources/js/post-page.js`
  (lines 1028–1618) — read path (`Collector`, `contentHandler`,
  `_processContent`, `querySelector`, `querySelectorAll`,
  `getAttribute`) and write path (`ElementHandler`, `AttributeHandler`,
  `InsertHandler`, `deleteElements`, `replaceElements`, `setAttributes`,
  `insertHtml`).  These are embedded without a suffix.

The external tokenizer/dispatcher (Cloudflare's HTMLRewriter) is not part
of the repository; per the design document it is an external collaborator.
It is modelled from the documented event contract: a document is the list
of events (`Tok`) the dispatcher produces for it — one `element` event per
opening tag in document order with attributes in source order, one
`endTag` event per non-void element's closing tag (void elements never
produce an end-tag event, so end-tag callbacks registered on them never
fire), `textChunk` and `comment` events for text runs and comments.
CSS selector matching is likewise delegated: a `SelectorEngine` decides
whether a selector string matches an element.  Facade functions receive
both the raw document value (for the input guards the facades perform)
and the event stream the dispatcher derives from it.
-/

/-- A JavaScript value as far as the facade guards can observe it:
either a string or some non-string value (`typeof x !== 'string'`). -/
inductive JsVal where
  | str (s : String)
  | other
deriving DecidableEq, Repr

/-- Whether a JavaScript value is a string (`typeof x === 'string'`). -/
def JsVal.isString : JsVal → Bool
  | .str _ => true
  | .other => false

/-- Embedding of `String.prototype.trim`: strip leading and trailing
whitespace. -/
def jsTrim (s : String) : String :=
  ⟨List.reverse ((List.reverse (s.data.dropWhile Char.isWhitespace)).dropWhile Char.isWhitespace)⟩

/-- The validity test every read-path facade performs on its `html`
argument: `typeof html === 'string' && html.trim()` is truthy. -/
def validHtml : JsVal → Bool
  | .str s => !(jsTrim s == "")
  | .other => false

/-- List of HTML void elements (self-closing tags), from both revisions. -/
def VOID_ELEMENTS : List String :=
  ["area", "base", "br", "col", "embed", "hr", "img", "input",
   "link", "meta", "param", "source", "track", "wbr"]

/-- ASCII lowercasing of a string, embedding `String.prototype.toLowerCase`
as used on (ASCII) tag names. -/
def lowerStr (s : String) : String := ⟨s.data.map Char.toLower⟩

/-- Membership test `VOID_ELEMENTS.has(tag.toLowerCase())`. -/
def isVoid (tag : String) : Bool := VOID_ELEMENTS.contains (lowerStr tag)

/-- Character-level worker for `escQuote`. -/
def escQuoteAux : List Char → List Char
  | [] => []
  | c :: cs =>
      if c = '"' then '&' :: 'q' :: 'u' :: 'o' :: 't' :: ';' :: escQuoteAux cs
      else c :: escQuoteAux cs

/-- Embedding of `value.replace(/"/g, '&quot;')` from the final
revision's `_openTag` (post-page.js line 1057). -/
def escQuote (s : String) : String := ⟨escQuoteAux s.data⟩

/-- Embedding of `_openTag` from the final revision
(post-page.js lines 1053–1061): serialize an opening tag, attributes in
source order, double quotes in attribute values escaped as `&quot;`. -/
def openTagStr (tag : String) (attrs : List (String × String)) : String :=
  attrs.foldl (fun acc a => acc ++ " " ++ a.1 ++ "=\"" ++ escQuote a.2 ++ "\"") ("<" ++ tag) ++ ">"

/-- Embedding of `Collector._openTag` from `src/htmlparser.js`
(lines 175–181): same shape but the attribute value is interpolated
without any escaping. -/
def openTagV1 (tag : String) (attrs : List (String × String)) : String :=
  attrs.foldl (fun acc a => acc ++ " " ++ a.1 ++ "=\"" ++ a.2 ++ "\"") ("<" ++ tag) ++ ">"

/-- The canonical textual form in which the modelled dispatcher emits an
untouched opening tag to its output stream. -/
def renderOpen (tag : String) (attrs : List (String × String)) : String :=
  attrs.foldl (fun acc a => acc ++ " " ++ a.1 ++ "=\"" ++ a.2 ++ "\"") ("<" ++ tag) ++ ">"

/-- One parse event of the external dispatcher, per the documented data
model: `element` carries the tag name and the ordered attribute list;
`endTag` fires once per non-void element's closing tag; `textChunk` and
`comment` carry text runs and comment text. -/
inductive Tok where
  | element (tag : String) (attrs : List (String × String))
  | endTag (tag : String)
  | textChunk (s : String)
  | comment (s : String)
deriving DecidableEq, Repr

/-- The delegated CSS selector matcher: given the selector string, a tag
name and its attributes, decide whether the selector matches. -/
abbrev SelectorEngine := String → String → List (String × String) → Bool

/-- A concrete selector engine for witnesses: a selector matches exactly
the elements whose tag name equals the selector string. -/
def engByTag : SelectorEngine := fun sel tag _ => sel == tag

/-- A concrete selector engine for witnesses: `.c` matches exactly the
elements whose `class` attribute is `c`. -/
def engByClass : SelectorEngine := fun sel _ attrs =>
  match attrs.lookup "class" with
  | some c => sel == "." ++ c
  | none => false

/-- Options of the read path: `returnInnerHtml` and `stripTags` default
to false, `attributeName` to null (`none`). -/
structure QueryOptions where
  returnInnerHtml : Bool
  stripTags : Bool
  attributeName : Option String
deriving DecidableEq, Repr

/-- Options of the write path: `firstOnly` defaults to false. -/
structure MutOptions where
  firstOnly : Bool
deriving DecidableEq, Repr

/-- Normalization `options.attributeName || null` performed by both
Collector constructors: the empty string is falsy and becomes null. -/
def normAttrName (o : Option String) : Option String :=
  match o with
  | some s => if s == "" then none else some s
  | none => none

/-- State of the final revision's `Collector`
(post-page.js lines 1067–1127). -/
structure CollectorState where
  results : List String
  isCapturing : Bool
  captureBuffer : String
  currentTagName : String
deriving DecidableEq, Repr

/-- The end-tag callbacks registered while one element is open:
`contentClose` is the nested tag name captured by value by the wildcard
`contentHandler` (post-page.js lines 1262–1266), to be appended as a
closing tag when the element ends; `collectorClose` records that the
`Collector`'s own finalizing callback (lines 1111–1125) was registered
on this element. -/
structure CFrame where
  contentClose : Option String
  collectorClose : Bool
deriving DecidableEq, Repr

/-- The wildcard `contentHandler.element` (post-page.js lines 1254–1268):
while capturing, append the serialized open tag to the buffer and, for
non-void elements, register an end-tag callback that appends the closing
tag (capturing the tag name by value).  Returns the updated state and the
registered callback. -/
def contentElement (st : CollectorState) (tag : String) (attrs : List (String × String)) :
    CollectorState × Option String :=
  if st.isCapturing then
    ({ st with captureBuffer := st.captureBuffer ++ openTagStr tag attrs },
     if isVoid tag then none else some tag)
  else (st, none)

/-- The `Collector.element` handler on the target selector, non-attribute
path (post-page.js lines 1100–1125): reset the buffer to the serialized
open tag, store the tag name, set `isCapturing`, and register the
finalizing end-tag callback (returned flag). -/
def collectorElementCore (st : CollectorState) (tag : String) (attrs : List (String × String)) :
    CollectorState × Bool :=
  ({ st with isCapturing := true,
             captureBuffer := openTagStr tag attrs,
             currentTagName := tag }, true)

/-- The finalizing end-tag callback registered by `Collector.element`
(post-page.js lines 1111–1125): append the closing tag unless the stored
tag name is void, push the buffer to results, and reset the capture
state.  It reads the mutable fields at fire time. -/
def collectorEndTagCb (st : CollectorState) : CollectorState :=
  let buf := if isVoid st.currentTagName then st.captureBuffer
             else st.captureBuffer ++ "</" ++ st.currentTagName ++ ">"
  { results := st.results ++ [buf], isCapturing := false,
    captureBuffer := "", currentTagName := "" }

/-- The `contentHandler.comments` method of the final revision
(post-page.js lines 1275–1280): while capturing it appends the empty
template literal to the buffer — the comment text is not appended. -/
def commentsStep (st : CollectorState) (s : String) : CollectorState :=
  if st.isCapturing then { st with captureBuffer := st.captureBuffer ++ "" } else st

/-- The `contentHandler.comments` method of the earlier revision embedded
in the same file (post-page.js lines 797–802): while capturing it appends
the comment wrapped as markup. -/
def commentsStepPrev (st : CollectorState) (s : String) : CollectorState :=
  if st.isCapturing then { st with captureBuffer := st.captureBuffer ++ "<!--" ++ s ++ "-->" } else st

/-- One dispatcher step of the dual-handler read-path setup of the final
revision (`.on('*', contentHandler).on(selector, collector)`,
post-page.js lines 1293–1296).  Handlers fire in registration order: the
wildcard content handler first, then the selector-bound collector.
End-tag callbacks registered at an element's open fire, in registration
order, when that element's end tag arrives; void elements produce no
end-tag event, so no callback frame is pushed for them. -/
def dualStep (M : SelectorEngine) (selector : String) :
    CollectorState × List CFrame → Tok → CollectorState × List CFrame
  | (st, frames), .element tag attrs =>
      let p1 := contentElement st tag attrs
      let fired := M selector tag attrs
      let p2 := if fired then collectorElementCore p1.1 tag attrs else (p1.1, false)
      (p2.1, if isVoid tag then frames else ⟨p1.2, p2.2⟩ :: frames)
  | (st, frames), .endTag _ =>
      match frames with
      | [] => (st, [])
      | f :: fs =>
          let st1 := match f.contentClose with
                     | some t => { st with captureBuffer := st.captureBuffer ++ "</" ++ t ++ ">" }
                     | none => st
          (if f.collectorClose then collectorEndTagCb st1 else st1, fs)
  | (st, frames), .textChunk s =>
      (if st.isCapturing then { st with captureBuffer := st.captureBuffer ++ s } else st, frames)
  | (st, frames), .comment s => (commentsStep st s, frames)

/-- One dispatcher step of the attribute fast path
(post-page.js lines 1284–1290 and 1090–1098): only the collector is
registered, and on each match it pushes the attribute's value, or the
empty string when the element lacks the attribute; it never buffers. -/
def attrStep (M : SelectorEngine) (selector : String) (name : String)
    (st : CollectorState) : Tok → CollectorState
  | .element tag attrs =>
      if M selector tag attrs then
        { st with results := st.results ++ [((attrs.lookup name).getD "")] }
      else st
  | _ => st

/-- Initial state of a fresh `Collector` (post-page.js lines 1072–1084). -/
def initCollector : CollectorState := ⟨[], false, "", ""⟩

/-- Embedding of `_runRewriter` of the final revision
(post-page.js lines 1234–1303): run the attribute fast path when an
attribute name option is set (after `|| null` normalization), otherwise
the dual-handler capture setup, over the dispatcher's event stream. -/
def runCollector (M : SelectorEngine) (selector : String)
    (attributeName : Option String) (toks : List Tok) : CollectorState :=
  match normAttrName attributeName with
  | some name => toks.foldl (attrStep M selector name) initCollector
  | none => (toks.foldl (dualStep M selector) (initCollector, [])).1

/-- Worker for `innerHtmlOfOuter`, on character lists. -/
def lowerChars (l : List Char) : List Char := l.map Char.toLower

/-- Embedding of the inner-HTML extraction in `_processContent`
(post-page.js line 1320): the regex
`^<([a-zA-Z0-9]+)([^>]*)>([\s\S]*?)<\/\1>$` with the `i` flag.  The open
tag is an alphanumeric tag name followed by attribute characters up to
the first `>`; the match succeeds when the remainder ends with the
matching closing tag (compared case-insensitively), in which case the
content strictly between them is returned; otherwise the result is the
empty string. -/
def innerHtmlOfOuter (content : String) : String :=
  match content.data with
  | '<' :: rest =>
      let tagCs := rest.takeWhile Char.isAlphanum
      if tagCs.isEmpty then ""
      else
        match (rest.dropWhile Char.isAlphanum).dropWhile (· != '>') with
        | '>' :: body =>
            let closing := '<' :: '/' :: (tagCs ++ ['>'])
            if closing.length ≤ body.length ∧
               lowerChars (body.drop (body.length - closing.length)) = lowerChars closing
            then ⟨body.take (body.length - closing.length)⟩
            else ""
        | _ => ""
  | _ => ""

/-- Worker for `stripAllTags`: left-to-right scan mirroring the global
regex replacement; `pending` holds the characters of a potential tag
since the last unconsumed `<`.  On `>` the pending span is discarded; at
end of input an unterminated span is kept verbatim (the regex would not
match it). -/
def stripAllTagsGo (pending : List Char) : List Char → List Char
  | [] => pending
  | c :: cs =>
      match pending with
      | [] => if c = '<' then stripAllTagsGo ['<'] cs else c :: stripAllTagsGo [] cs
      | _ :: _ => if c = '>' then stripAllTagsGo [] cs else stripAllTagsGo (pending ++ [c]) cs

/-- Embedding of `content.replace(/<[^>]*>/g, '')`
(post-page.js line 1336). -/
def stripAllTags (s : String) : String := ⟨stripAllTagsGo [] s.data⟩

/-- Embedding of `_processContent` of the final revision
(post-page.js lines 1313–1340): derive inner HTML when
`returnInnerHtml` is set, then strip tags only when both `stripTags`
and `returnInnerHtml` are set. -/
def processContent (content : String) (opts : QueryOptions) : String :=
  let p1 := if opts.returnInnerHtml then innerHtmlOfOuter content else content
  if opts.stripTags && opts.returnInnerHtml then stripAllTags p1 else p1

/-- The sentinel string the read-path facades return for an invalid
`html` argument. -/
def errNoHtml : String := "ERROR: No valid HTML string provided."

/-- Embedding of `querySelector` of the final revision
(post-page.js lines 1351–1364): on invalid html return the sentinel
string; otherwise run the collector and post-process the first captured
result, or return null (`none`) when there is none. -/
def querySelector (M : SelectorEngine) (html : JsVal) (toks : List Tok)
    (selector : String) (opts : QueryOptions) : Option String :=
  if validHtml html then
    match (runCollector M selector opts.attributeName toks).results with
    | [] => none
    | r :: _ => some (processContent r opts)
  else some errNoHtml

/-- Embedding of `querySelectorAll` of the final revision
(post-page.js lines 1375–1385): on invalid html return the one-element
sentinel sequence; otherwise post-process every captured result. -/
def querySelectorAll (M : SelectorEngine) (html : JsVal) (toks : List Tok)
    (selector : String) (opts : QueryOptions) : List String :=
  if validHtml html then
    (runCollector M selector opts.attributeName toks).results.map (fun r => processContent r opts)
  else [errNoHtml]

/-- Embedding of `getAttribute` of the final revision
(post-page.js lines 1460–1478): guard html, selector and attribute name,
then run the attribute fast path and return the first result or null. -/
def getAttribute (M : SelectorEngine) (html : JsVal) (toks : List Tok)
    (selector : String) (attributeName : String) : Option String :=
  if validHtml html then
    if jsTrim selector == "" then none
    else if jsTrim attributeName == "" then none
    else (runCollector M selector (some attributeName) toks).results.head?
  else none

/-- The opening-tag events of a stream that a selector matches, in
document order. -/
def matchedOpens (M : SelectorEngine) (selector : String) (toks : List Tok) :
    List (String × List (String × String)) :=
  toks.filterMap fun t =>
    match t with
    | .element tag attrs => if M selector tag attrs then some (tag, attrs) else none
    | _ => none

/-!
Embedding of the first revision, `src/htmlparser.js`.  Its single
handler is registered on the target selector only; the dispatcher
delivers `element` events for matches, `text` events for text runs
inside matched elements' subtrees, and fires per-element end-tag
callbacks registered at open time.
-/

/-- State of the `Collector` of `src/htmlparser.js` (lines 40–182):
`buffer` is `_currentElementBuffer` (null when no element is being
buffered), `tagName` is `_currentElementTagName`. -/
structure V1State where
  results : List String
  buffer : Option String
  tagName : Option String
deriving DecidableEq, Repr

/-- Per-open bookkeeping for the v1 run: whether the element matched the
selector (its subtree is in scope for the handler's `text` method) and
whether the collector registered its end-tag callback on it. -/
structure V1Frame where
  inMatch : Bool
  cb : Bool
deriving DecidableEq, Repr

/-- First index of a character in a list, if any. -/
def firstIdx (c : Char) : List Char → Option Nat
  | [] => none
  | x :: xs => if x = c then some 0 else (firstIdx c xs).map (· + 1)

/-- Last index of a character in a list, if any. -/
def lastIdx (c : Char) (l : List Char) : Option Nat :=
  (firstIdx c l.reverse).map (fun k => l.length - 1 - k)

/-- The inner-HTML extraction of the v1 end-tag callback
(htmlparser.js lines 108–121): take the substring strictly between the
first `>` and the last `<`, or the empty string when they are missing or
misordered. -/
def innerByIndex (s : String) : String :=
  match firstIdx '>' s.data, lastIdx '<' s.data with
  | some i, some j => if i < j then ⟨(s.data.drop (i + 1)).take (j - (i + 1))⟩ else ""
  | _, _ => ""

/-- The v1 end-tag callback (htmlparser.js lines 95–141): if an element
is being buffered, append the closing tag, apply the `returnInnerHtml`
and `stripTags` options, push the result and reset the buffer. -/
def v1Finalize (opts : QueryOptions) (st : V1State) : V1State :=
  match st.buffer with
  | none => st
  | some buf =>
      let f0 := buf ++ "</" ++ st.tagName.getD "" ++ ">"
      let f1 := if opts.returnInnerHtml then innerByIndex f0 else f0
      let f2 := if opts.stripTags then stripAllTags f1 else f1
      { results := st.results ++ [f2], buffer := none, tagName := none }

/-- One dispatcher step for the v1 collector (htmlparser.js
lines 65–157): on a matched open, either run the attribute fast path, or
finalize a void element immediately (its inner HTML being empty), or
start buffering and register the end-tag callback; text chunks are
delivered inside matched subtrees and appended while buffering (and not
in attribute mode); the v1 collector has no comment handler. -/
def v1Step (M : SelectorEngine) (selector : String) (opts : QueryOptions) :
    V1State × List V1Frame → Tok → V1State × List V1Frame
  | (st, frames), .element tag attrs =>
      let fired := M selector tag attrs
      let p :=
        if fired then
          match normAttrName opts.attributeName with
          | some name =>
              ({ st with results := st.results ++ [((attrs.lookup name).getD "")] }, false)
          | none =>
              if isVoid tag then
                let fc := if opts.returnInnerHtml then "" else openTagV1 tag attrs
                ({ st with results := st.results ++ [fc] }, false)
              else
                ({ st with buffer := some (openTagV1 tag attrs), tagName := some tag }, true)
        else (st, false)
      (p.1, if isVoid tag then frames else ⟨fired, p.2⟩ :: frames)
  | (st, frames), .endTag _ =>
      match frames with
      | [] => (st, [])
      | f :: fs => (if f.cb then v1Finalize opts st else st, fs)
  | (st, frames), .textChunk s =>
      (if frames.any (·.inMatch) && st.buffer.isSome && (normAttrName opts.attributeName).isNone
       then { st with buffer := st.buffer.map (· ++ s) } else st, frames)
  | (st, frames), .comment _ => (st, frames)

/-- Initial v1 collector state (htmlparser.js lines 47–59). -/
def initV1 : V1State := ⟨[], none, none⟩

/-- Embedding of `_runRewriter` of `src/htmlparser.js` (lines 191–219). -/
def runCollectorV1 (M : SelectorEngine) (selector : String) (opts : QueryOptions)
    (toks : List Tok) : V1State :=
  (toks.foldl (v1Step M selector opts) (initV1, [])).1

/-- Embedding of `querySelector` of `src/htmlparser.js` (lines 230–239):
sentinel string on invalid html, otherwise the first collected result or
null. -/
def querySelectorV1 (M : SelectorEngine) (html : JsVal) (toks : List Tok)
    (selector : String) (opts : QueryOptions) : Option String :=
  if validHtml html then (runCollectorV1 M selector opts toks).results.head?
  else some errNoHtml

/-!
Embedding of the write path of the final revision: the three handler
classes and the dispatcher's output rewriting.  Mutations are
output-stream effects: `remove`/`replaceWith` drop the element and its
subtree from the output (replacement emits the new markup instead),
`updateAttrs` rewrites only the open tag, `insertAdjacent` emits markup
around the element.  Handlers fire once per matching element in document
order, also inside dropped content; only the output is affected there.
-/

/-- The mutation a handler instructs the dispatcher to perform on a
matched element. -/
inductive RwAction where
  | pass
  | remove
  | replaceWith (s : String)
  | updateAttrs (m : List (String × Option String))
  | insertAdjacent (position : String) (s : String)
deriving DecidableEq, Repr

/-- Embedding of `ElementHandler.element` (post-page.js lines 1132–1152):
gate on `firstOnly && alreadyActed`; otherwise remove when `newHtml` is
null, else replace; mark acted.  Returns the new acted flag and the
instructed action. -/
def elementHandlerStep (newHtml : Option String) (firstOnly : Bool) (acted : Bool) :
    Bool × RwAction :=
  if firstOnly && acted then (acted, .pass)
  else
    match newHtml with
    | none => (true, .remove)
    | some s => (true, .replaceWith s)

/-- Embedding of `AttributeHandler.element` (post-page.js
lines 1157–1181): same gating; otherwise instruct the attribute updates
and mark acted. -/
def attributeHandlerStep (m : List (String × Option String)) (firstOnly : Bool) (acted : Bool) :
    Bool × RwAction :=
  if firstOnly && acted then (acted, .pass) else (true, .updateAttrs m)

/-- The four positions `insertHtml` recognizes
(post-page.js line 1595). -/
def validPositions : List String := ["beforebegin", "afterbegin", "beforeend", "afterend"]

/-- Embedding of `InsertHandler.element` (post-page.js lines 1187–1224):
same gating; the switch instructs an insertion for a recognized
position and logs an error (no mutation) otherwise; either way the
handler marks acted. -/
def insertHandlerStep (position : String) (newHtml : String) (firstOnly : Bool) (acted : Bool) :
    Bool × RwAction :=
  if firstOnly && acted then (acted, .pass)
  else if validPositions.contains position then (true, .insertAdjacent position newHtml)
  else (true, .pass)

/-- Embedding of `element.removeAttribute(key)` of the dispatcher. -/
def removeAttr (k : String) (attrs : List (String × String)) : List (String × String) :=
  attrs.filter (fun a => a.1 != k)

/-- Embedding of `element.setAttribute(key, value)` of the dispatcher:
update an existing attribute in place, else append it. -/
def setAttr (k v : String) (attrs : List (String × String)) : List (String × String) :=
  if attrs.any (fun a => a.1 == k) then
    attrs.map (fun a => if a.1 == k then (k, v) else a)
  else attrs ++ [(k, v)]

/-- The loop body of `AttributeHandler.element` (post-page.js
lines 1169–1177) applied over the attribute map in entry order: a null
value removes the attribute, any other value sets it. -/
def applyAttrs (m : List (String × Option String)) (attrs : List (String × String)) :
    List (String × String) :=
  m.foldl (fun as kv =>
    match kv.2 with
    | none => removeAttr kv.1 as
    | some v => setAttr kv.1 v as) attrs

/-- State of the modelled output-rewriting dispatcher: the handler's
acted flag, the depth of a subtree currently dropped from the output
(0 when emitting), one frame per open emitted non-void element holding
markup to emit before and after its closing tag, and the output built so
far. -/
structure RwState where
  acted : Bool
  skip : Nat
  frames : List (String × String)
  out : String
deriving DecidableEq, Repr

/-- One output-rewriting dispatcher step: fire the handler on matching
element events (updating the acted flag), apply the instructed action to
the output, drop content while inside a removed or replaced subtree, and
emit everything else verbatim. -/
def rwStep (M : SelectorEngine) (selector : String) (hstep : Bool → Bool × RwAction)
    (st : RwState) : Tok → RwState
  | .element tag attrs =>
      let fired := M selector tag attrs
      let acted' := if fired then (hstep st.acted).1 else st.acted
      if st.skip > 0 then
        { st with acted := acted', skip := st.skip + (if isVoid tag then 0 else 1) }
      else
        match (if fired then (hstep st.acted).2 else RwAction.pass) with
        | .pass =>
            { st with acted := acted', out := st.out ++ renderOpen tag attrs,
                      frames := if isVoid tag then st.frames else ("", "") :: st.frames }
        | .remove =>
            if isVoid tag then { st with acted := acted' }
            else { st with acted := acted', skip := 1 }
        | .replaceWith s =>
            if isVoid tag then { st with acted := acted', out := st.out ++ s }
            else { st with acted := acted', out := st.out ++ s, skip := 1 }
        | .updateAttrs m =>
            { st with acted := acted', out := st.out ++ renderOpen tag (applyAttrs m attrs),
                      frames := if isVoid tag then st.frames else ("", "") :: st.frames }
        | .insertAdjacent pos s =>
            if isVoid tag then
              if pos = "beforebegin" then
                { st with acted := acted', out := st.out ++ s ++ renderOpen tag attrs }
              else { st with acted := acted', out := st.out ++ renderOpen tag attrs ++ s }
            else
              if pos = "beforebegin" then
                { st with acted := acted', out := st.out ++ s ++ renderOpen tag attrs,
                          frames := ("", "") :: st.frames }
              else if pos = "afterbegin" then
                { st with acted := acted', out := st.out ++ renderOpen tag attrs ++ s,
                          frames := ("", "") :: st.frames }
              else if pos = "beforeend" then
                { st with acted := acted', out := st.out ++ renderOpen tag attrs,
                          frames := (s, "") :: st.frames }
              else if pos = "afterend" then
                { st with acted := acted', out := st.out ++ renderOpen tag attrs,
                          frames := ("", s) :: st.frames }
              else
                { st with acted := acted', out := st.out ++ renderOpen tag attrs,
                          frames := ("", "") :: st.frames }
  | .endTag tag =>
      if st.skip > 0 then { st with skip := st.skip - 1 }
      else
        match st.frames with
        | [] => { st with out := st.out ++ "</" ++ tag ++ ">" }
        | f :: fs => { st with out := st.out ++ f.1 ++ "</" ++ tag ++ ">" ++ f.2, frames := fs }
  | .textChunk s =>
      if st.skip > 0 then st else { st with out := st.out ++ s }
  | .comment s =>
      if st.skip > 0 then st else { st with out := st.out ++ "<!--" ++ s ++ "-->" }

/-- Initial dispatcher state: handler not acted, emitting, no output. -/
def initRw : RwState := ⟨false, 0, [], ""⟩

/-- Run a mutation handler over a document's event stream and return the
rewritten document text the caller obtains by draining the transformed
stream. -/
def runRewrite (M : SelectorEngine) (selector : String) (hstep : Bool → Bool × RwAction)
    (toks : List Tok) : String :=
  (toks.foldl (rwStep M selector hstep) initRw).out

/-- Canonical serialization of one event, the output the dispatcher
emits for untouched content. -/
def serializeTok : Tok → String
  | .element tag attrs => renderOpen tag attrs
  | .endTag tag => "</" ++ tag ++ ">"
  | .textChunk s => s
  | .comment s => "<!--" ++ s ++ "-->"

/-- Canonical serialization of an event stream. -/
def serializeToks : List Tok → String
  | [] => ""
  | t :: ts => serializeTok t ++ serializeToks ts

/-- Embedding of `deleteElements` (post-page.js lines 1488–1507): run an
`ElementHandler` with null `newHtml` over the document. -/
def deleteElements (M : SelectorEngine) (html : JsVal) (toks : List Tok)
    (selector : String) (opts : MutOptions) : JsVal :=
  .str (runRewrite M selector (elementHandlerStep none opts.firstOnly) toks)

/-- Embedding of `replaceElements` (post-page.js lines 1518–1542): a
non-string `newHtml` returns the original document before any handler
is created; otherwise run an `ElementHandler` with the new markup. -/
def replaceElements (M : SelectorEngine) (html : JsVal) (toks : List Tok)
    (selector : String) (newHtml : JsVal) (opts : MutOptions) : JsVal :=
  match newHtml with
  | .str s => .str (runRewrite M selector (elementHandlerStep (some s) opts.firstOnly) toks)
  | .other => html

/-- Embedding of `setAttributes` (post-page.js lines 1553–1577); the
attribute map is typed, so the facade's `typeof attributes` guard is
statically satisfied. -/
def setAttributes (M : SelectorEngine) (html : JsVal) (toks : List Tok)
    (selector : String) (attrsMap : List (String × Option String)) (opts : MutOptions) : JsVal :=
  .str (runRewrite M selector (attributeHandlerStep attrsMap opts.firstOnly) toks)

/-- Embedding of `insertHtml` (post-page.js lines 1590–1618): a
non-string `newHtml`, and then an unrecognized position, each return the
original document before any handler is created; otherwise run an
`InsertHandler`. -/
def insertHtml (M : SelectorEngine) (html : JsVal) (toks : List Tok)
    (selector : String) (position : String) (newHtml : JsVal) (opts : MutOptions) : JsVal :=
  match newHtml with
  | .other => html
  | .str s =>
      if validPositions.contains position then
        .str (runRewrite M selector (insertHandlerStep position s opts.firstOnly) toks)
      else html

/-- The map a `setAttributes` call applies to one event: attribute
updates on matched opening tags, everything else untouched. -/
def setAttrsTok (M : SelectorEngine) (selector : String)
    (m : List (String × Option String)) : Tok → Tok
  | .element tag attrs =>
      .element tag (if M selector tag attrs then applyAttrs m attrs else attrs)
  | t => t

/-- Skip bookkeeping of the modelled dispatcher: starting with `n ≥ 1`
levels of dropped subtree, consume events until the drop ends and return
the remaining stream. -/
def afterSkip : Nat → List Tok → Option (List Tok)
  | _, [] => none
  | n, .element tag _ :: ts => afterSkip (if isVoid tag then n else n + 1) ts
  | n, .endTag _ :: ts => if n = 1 then some ts else afterSkip (n - 1) ts
  | n, .textChunk _ :: ts => afterSkip n ts
  | n, .comment _ :: ts => afterSkip n ts

/-! Helper lemmas. -/

/-- The attribute loop of `openTagStr`, rewritten from a left fold into
an append of per-attribute fragments in source order. -/
theorem openTagStr_foldl_eq (attrs : List (String × String)) :
    ∀ pre : String,
      attrs.foldl (fun acc a => acc ++ " " ++ a.1 ++ "=\"" ++ escQuote a.2 ++ "\"") pre
        = pre ++ (attrs.map (fun a => " " ++ a.1 ++ "=\"" ++ escQuote a.2 ++ "\"")).foldr (· ++ ·) "" := by
  induction attrs with
  | nil => intro pre; simp [String.append_empty]
  | cons a as ih =>
      intro pre
      simp only [List.foldl_cons, List.map_cons, List.foldr_cons]
      rw [ih]
      simp [String.append_assoc]

/-- `escQuoteAux` written as per-character replacement, preserving
character order. -/
theorem escQuoteAux_eq (l : List Char) :
    String.mk (escQuoteAux l)
      = (l.map (fun c => if c = '"' then "&quot;" else String.singleton c)).foldr (· ++ ·) "" := by
  induction l with
  | nil => rfl
  | cons c cs ih =>
      simp only [escQuoteAux, List.map_cons, List.foldr_cons]
      by_cases h : c = '"'
      · rw [if_pos h, if_pos h, ← ih]; rfl
      · rw [if_neg h, if_neg h, ← ih]; rfl

/-- C5: the open-tag serializer of the final revision produces
`<tagname attr1="v1" attr2="v2">`, emitting the attribute fragments in
their original source order, and every double quote occurring in an
attribute value is replaced by `&quot;`: the fold in `openTagStr` equals
the ordered concatenation of per-attribute fragments, `escQuote` is the
per-character replacement of `"` by `&quot;`, and a concrete tag with a
quoted value serializes as claimed. -/
theorem c5_open_tag_serializer :
    (∀ (tag : String) (attrs : List (String × String)),
        openTagStr tag attrs
          = "<" ++ tag
              ++ (attrs.map (fun a => " " ++ a.1 ++ "=\"" ++ escQuote a.2 ++ "\"")).foldr (· ++ ·) ""
              ++ ">")
    ∧ (∀ v : String,
        escQuote v = (v.data.map (fun c => if c = '"' then "&quot;" else String.singleton c)).foldr (· ++ ·) "")
    ∧ openTagStr "img" [("src", "x.png"), ("alt", "a\"b")] = "<img src=\"x.png\" alt=\"a&quot;b\">" := by
  refine ⟨?_, ?_, by decide⟩
  · intro tag attrs
    unfold openTagStr
    rw [openTagStr_foldl_eq]
  · intro v
    exact escQuoteAux_eq v.data

/-- C3: the `stripTags` option has no effect unless `returnInnerHtml` is
true: `querySelector` with `{stripTags: true}` equals `querySelector`
with default options on every document and selector, and
`processContent` with `stripTags` alone is the identity. -/
theorem c3_stripTags_noop_without_innerHtml :
    (∀ (M : SelectorEngine) (html : JsVal) (toks : List Tok) (selector : String),
        querySelector M html toks selector ⟨false, true, none⟩
          = querySelector M html toks selector ⟨false, false, none⟩)
    ∧ (∀ content : String, processContent content ⟨false, true, none⟩ = content) :=
  ⟨fun M html toks selector => rfl, fun content => rfl⟩

/-- C4 counterexample: on an empty document `querySelector` does not
return null — it returns the sentinel error string. -/
theorem c4_invalid_html_returns_sentinel_cex :
    querySelector engByTag (JsVal.str "") [] "div" ⟨false, false, none⟩
        = some "ERROR: No valid HTML string provided."
    ∧ querySelector engByTag (JsVal.str "") [] "div" ⟨false, false, none⟩ ≠ none :=
  ⟨rfl, by decide⟩

/-- C4 (amended): when the document text is empty or not a string,
`querySelector` returns the sentinel error string (not null) and
`querySelectorAll` returns the one-element sentinel sequence; the
functions are total, so no exception reaches the caller. -/
theorem c4_invalid_html_sentinel (M : SelectorEngine) (html : JsVal) (toks : List Tok)
    (selector : String) (opts : QueryOptions) (h : validHtml html = false) :
    querySelector M html toks selector opts = some errNoHtml
    ∧ querySelectorAll M html toks selector opts = [errNoHtml] := by
  unfold querySelector querySelectorAll
  rw [h]
  exact ⟨rfl, rfl⟩

/-- C4 witness: the amended claim at a concrete non-string document. -/
theorem c4_invalid_html_sentinel_w :
    querySelector engByTag JsVal.other [] "div" ⟨false, false, none⟩ = some errNoHtml
    ∧ querySelectorAll engByTag JsVal.other [] "div" ⟨false, false, none⟩ = [errNoHtml] :=
  c4_invalid_html_sentinel engByTag JsVal.other [] "div" ⟨false, false, none⟩ (by decide)

/-- C1: for the document `<img src="x.png">` and selector `img`, the
final revision's Collector does not finalize the void top-level match:
its open handler sets `isCapturing` and defers to an end-tag callback
that never fires, so `querySelector` returns null instead of the
serialized open tag; the first revision (`src/htmlparser.js`), whose
open handler finalizes void matches immediately, returns
`<img src="x.png">` as the claim states. -/
theorem c1_void_top_level_match :
    querySelector engByTag (JsVal.str "<img src=\"x.png\">")
        [Tok.element "img" [("src", "x.png")]] "img" ⟨false, false, none⟩ = none
    ∧ (runCollector engByTag "img" none [Tok.element "img" [("src", "x.png")]]).isCapturing = true
    ∧ (runCollector engByTag "img" none [Tok.element "img" [("src", "x.png")]]).results = []
    ∧ querySelectorV1 engByTag (JsVal.str "<img src=\"x.png\">")
        [Tok.element "img" [("src", "x.png")]] "img" ⟨false, false, none⟩
        = some "<img src=\"x.png\">" :=
  ⟨rfl, rfl, rfl, rfl⟩

/-- C2: a comment event that fires while the Collector is capturing does
not append `<!--text-->` in the final revision — `contentHandler.comments`
appends the empty string, so the captured outer HTML of
`<div><!--c--></div>` is `<div></div>`; the earlier revision's comments
handler (post-page.js lines 797–802) appends `<!--c-->` as the claim
states. -/
theorem c2_capture_drops_comment :
    querySelector engByTag (JsVal.str "<div><!--c--></div>")
        [Tok.element "div" [], Tok.comment "c", Tok.endTag "div"] "div" ⟨false, false, none⟩
        = some "<div></div>"
    ∧ commentsStep ⟨[], true, "<div>", "div"⟩ "c" = ⟨[], true, "<div>", "div"⟩
    ∧ commentsStepPrev ⟨[], true, "<div>", "div"⟩ "c" = ⟨[], true, "<div><!--c-->", "div"⟩ :=
  ⟨rfl, by decide, by decide⟩

/-- C8: `insertHtml` with a position outside the four recognized values
performs no insertion and returns the original document unchanged. -/
theorem c8_insert_invalid_position (M : SelectorEngine) (html : JsVal) (toks : List Tok)
    (selector position : String) (newHtml : JsVal) (opts : MutOptions)
    (h : validPositions.contains position = false) :
    insertHtml M html toks selector position newHtml opts = html := by
  cases newHtml with
  | other => rfl
  | str s =>
      show (if validPositions.contains position then _ else html) = html
      rw [h]
      rfl

/-- C8 witness: a concrete call with the unrecognized position
`topright` returns the original document. -/
theorem c8_insert_invalid_position_w :
    insertHtml engByTag (JsVal.str "<p></p>") [Tok.element "p" [], Tok.endTag "p"] "p"
        "topright" (JsVal.str "<b></b>") ⟨false⟩ = JsVal.str "<p></p>" :=
  c8_insert_invalid_position engByTag (JsVal.str "<p></p>")
    [Tok.element "p" [], Tok.endTag "p"] "p" "topright" (JsVal.str "<b></b>") ⟨false⟩ (by decide)

/-- C10: when `newHtml` is not a string, `replaceElements` and
`insertHtml` each return the original document unchanged, whatever the
event stream — the guard fires before any handler exists or any scan is
performed. -/
theorem c10_nonstring_newhtml_guard (M : SelectorEngine) (html : JsVal) (toks : List Tok)
    (selector position : String) (newHtml : JsVal) (opts : MutOptions)
    (h : newHtml.isString = false) :
    replaceElements M html toks selector newHtml opts = html
    ∧ insertHtml M html toks selector position newHtml opts = html := by
  cases newHtml with
  | str s => simp [JsVal.isString] at h
  | other => exact ⟨rfl, rfl⟩

/-- C10 witness: concrete non-string `newHtml` with a valid position and
a non-trivial document. -/
theorem c10_nonstring_newhtml_guard_w :
    replaceElements engByTag (JsVal.str "<p>x</p>")
        [Tok.element "p" [], Tok.textChunk "x", Tok.endTag "p"] "p" JsVal.other ⟨false⟩
        = JsVal.str "<p>x</p>"
    ∧ insertHtml engByTag (JsVal.str "<p>x</p>")
        [Tok.element "p" [], Tok.textChunk "x", Tok.endTag "p"] "p" "beforeend" JsVal.other ⟨false⟩
        = JsVal.str "<p>x</p>" :=
  c10_nonstring_newhtml_guard engByTag (JsVal.str "<p>x</p>")
    [Tok.element "p" [], Tok.textChunk "x", Tok.endTag "p"] "p" "beforeend" JsVal.other ⟨false⟩
    (by decide)

/-- The attribute fast path characterized: running the single-handler
setup pushes, for each matched opening tag in document order, the
looked-up attribute value or the empty string, and touches nothing
else in the collector state. -/
theorem attrRun_spec (M : SelectorEngine) (sel name : String) :
    ∀ (toks : List Tok) (st : CollectorState),
      toks.foldl (attrStep M sel name) st
        = { st with results :=
              st.results ++ (matchedOpens M sel toks).map (fun m => ((m.2.lookup name).getD "")) } := by
  intro toks
  induction toks with
  | nil => intro st; simp [matchedOpens]
  | cons t ts ih =>
      intro st
      cases t with
      | element tag attrs =>
          rw [List.foldl_cons]
          by_cases h : M sel tag attrs = true
          · have hstep : attrStep M sel name st (Tok.element tag attrs)
                = { st with results := st.results ++ [((attrs.lookup name).getD "")] } := by
              simp [attrStep, h]
            rw [hstep, ih]
            have hm : matchedOpens M sel (Tok.element tag attrs :: ts)
                = (tag, attrs) :: matchedOpens M sel ts := by
              simp [matchedOpens, h]
            rw [hm]
            simp
          · have hb : M sel tag attrs = false := by
              cases hv : M sel tag attrs
              · rfl
              · exact absurd hv h
            have hstep : attrStep M sel name st (Tok.element tag attrs) = st := by
              simp [attrStep, hb]
            have hm : matchedOpens M sel (Tok.element tag attrs :: ts)
                = matchedOpens M sel ts := by
              simp [matchedOpens, hb]
            rw [hstep, ih, hm]
      | endTag tag =>
          rw [List.foldl_cons]
          have hm : matchedOpens M sel (Tok.endTag tag :: ts) = matchedOpens M sel ts := by
            simp [matchedOpens]
          rw [hm, ← ih st]
          rfl
      | textChunk s =>
          rw [List.foldl_cons]
          have hm : matchedOpens M sel (Tok.textChunk s :: ts) = matchedOpens M sel ts := by
            simp [matchedOpens]
          rw [hm, ← ih st]
          rfl
      | comment s =>
          rw [List.foldl_cons]
          have hm : matchedOpens M sel (Tok.comment s :: ts) = matchedOpens M sel ts := by
            simp [matchedOpens]
          rw [hm, ← ih st]
          rfl

/-- C7: under valid inputs, `getAttribute` returns null exactly when no
element in the document matches the selector; when the first match
exists it returns that element's looked-up attribute value, with the
empty string (not null) for an absent attribute; and the fast path never
buffers: the collector never starts capturing and its buffer stays
empty. -/
theorem c7_get_attribute_fast_path (M : SelectorEngine) (html : JsVal) (toks : List Tok)
    (selector attributeName : String)
    (h1 : validHtml html = true)
    (h2 : (jsTrim selector == "") = false)
    (h3 : (jsTrim attributeName == "") = false) :
    (getAttribute M html toks selector attributeName = none
      ↔ matchedOpens M selector toks = [])
    ∧ (∀ tag attrs rest, matchedOpens M selector toks = (tag, attrs) :: rest →
        getAttribute M html toks selector attributeName
          = some ((attrs.lookup attributeName).getD ""))
    ∧ (runCollector M selector (some attributeName) toks).isCapturing = false
    ∧ (runCollector M selector (some attributeName) toks).captureBuffer = "" := by
  have hne : (attributeName == "") = false := by
    cases hb : (attributeName == "") with
    | false => rfl
    | true =>
        have he : attributeName = "" := eq_of_beq hb
        rw [he] at h3
        exact absurd h3 (by decide)
  have hnorm : normAttrName (some attributeName) = some attributeName := by
    simp [normAttrName, hne]
  have hrun : runCollector M selector (some attributeName) toks
      = { initCollector with results :=
            (matchedOpens M selector toks).map (fun m => ((m.2.lookup attributeName).getD "")) } := by
    unfold runCollector
    rw [hnorm]
    exact attrRun_spec M selector attributeName toks initCollector
  have hget : getAttribute M html toks selector attributeName
      = ((matchedOpens M selector toks).map (fun m => ((m.2.lookup attributeName).getD ""))).head? := by
    unfold getAttribute
    rw [h1, h2, h3, hrun]
    rfl
  refine ⟨?_, ?_, ?_, ?_⟩
  · rw [hget]
    cases hm : matchedOpens M selector toks with
    | nil => simp
    | cons m ms => simp
  · intro tag attrs rest hm
    rw [hget, hm]
    rfl
  · rw [hrun]
    rfl
  · rw [hrun]
    rfl

/-- C7 witness: a matched `<a>` element with no `href` attribute yields
the empty string. -/
theorem c7_get_attribute_fast_path_w :
    getAttribute engByTag (JsVal.str "<a></a>") [Tok.element "a" [], Tok.endTag "a"] "a" "href"
      = some "" :=
  (c7_get_attribute_fast_path engByTag (JsVal.str "<a></a>")
      [Tok.element "a" [], Tok.endTag "a"] "a" "href" (by decide) (by decide) (by decide)).2.1
    "a" [] [] (by decide)

/-- A `setAttributes` run with `firstOnly` false rewrites each matched
opening tag in place and emits everything else verbatim: the output of
the stateful dispatcher fold is the serialization of the per-token
map. -/
theorem rw_setattrs_out (M : SelectorEngine) (sel : String) (m : List (String × Option String)) :
    ∀ (toks : List Tok) (a : Bool) (fr : List (String × String)) (o : String),
      (∀ f ∈ fr, f = ("", "")) →
      (toks.foldl (rwStep M sel (attributeHandlerStep m false)) ⟨a, 0, fr, o⟩).out
        = o ++ serializeToks (toks.map (setAttrsTok M sel m)) := by
  intro toks
  induction toks with
  | nil =>
      intro a fr o h2
      simp [serializeToks, String.append_empty]
  | cons t ts ih =>
      intro a fr o h2
      rw [List.foldl_cons, List.map_cons]
      cases t with
      | element tag attrs =>
          have hstep : rwStep M sel (attributeHandlerStep m false) ⟨a, 0, fr, o⟩
                (Tok.element tag attrs)
              = ⟨if M sel tag attrs then true else a, 0,
                 if isVoid tag then fr else ("", "") :: fr,
                 o ++ renderOpen tag (if M sel tag attrs then applyAttrs m attrs else attrs)⟩ := by
            cases hf : M sel tag attrs <;> simp [rwStep, hf, attributeHandlerStep]
          have hfr : ∀ f ∈ (if isVoid tag then fr else ("", "") :: fr), f = ("", "") := by
            intro f hf
            cases hv : isVoid tag with
            | true =>
                rw [hv] at hf
                exact h2 f (by simpa using hf)
            | false =>
                rw [hv] at hf
                simp only [Bool.false_eq_true, if_false, List.mem_cons] at hf
                rcases hf with h | h
                · exact h
                · exact h2 f h
          rw [hstep, ih _ _ _ hfr]
          cases hf : M sel tag attrs <;>
            simp [serializeToks, serializeTok, setAttrsTok, hf, String.append_assoc]
      | endTag tag =>
          cases fr with
          | nil =>
              have hstep : rwStep M sel (attributeHandlerStep m false) ⟨a, 0, [], o⟩
                    (Tok.endTag tag)
                  = ⟨a, 0, [], o ++ "</" ++ tag ++ ">"⟩ := by
                simp [rwStep]
              rw [hstep, ih _ _ _ (by intro f hf; simp at hf),
                  show setAttrsTok M sel m (Tok.endTag tag) = Tok.endTag tag from rfl]
              simp [serializeToks, serializeTok, String.append_assoc]
          | cons f fs =>
              have hf0 : f = ("", "") := h2 f (by simp)
              have hfs : ∀ g ∈ fs, g = ("", "") := by
                intro g hg; exact h2 g (by simp [hg])
              have hstep : rwStep M sel (attributeHandlerStep m false) ⟨a, 0, f :: fs, o⟩
                    (Tok.endTag tag)
                  = ⟨a, 0, fs, o ++ "</" ++ tag ++ ">"⟩ := by
                simp [rwStep, hf0, String.append_empty]
              rw [hstep, ih _ _ _ hfs,
                  show setAttrsTok M sel m (Tok.endTag tag) = Tok.endTag tag from rfl]
              simp [serializeToks, serializeTok, String.append_assoc]
      | textChunk s =>
          have hstep : rwStep M sel (attributeHandlerStep m false) ⟨a, 0, fr, o⟩
                (Tok.textChunk s) = ⟨a, 0, fr, o ++ s⟩ := by
            simp [rwStep]
          rw [hstep, ih _ _ _ h2,
              show setAttrsTok M sel m (Tok.textChunk s) = Tok.textChunk s from rfl]
          simp [serializeToks, serializeTok, String.append_assoc]
      | comment s =>
          have hstep : rwStep M sel (attributeHandlerStep m false) ⟨a, 0, fr, o⟩
                (Tok.comment s) = ⟨a, 0, fr, o ++ "<!--" ++ s ++ "-->"⟩ := by
            simp [rwStep]
          rw [hstep, ih _ _ _ h2,
              show setAttrsTok M sel m (Tok.comment s) = Tok.comment s from rfl]
          simp [serializeToks, serializeTok, String.append_assoc]

/-- C9: `setAttributes` rewrites only the open tags of matched elements
— the output is the serialization of the stream with `applyAttrs`
applied to each matched opening tag and every other event (text,
comments, closing tags, unmatched elements) untouched — where
`applyAttrs` removes attribute `key` for each `(key, null)` entry and
sets `key` to `value` for each non-null entry, in map order; concretely,
`setAttributes` with `{class: null, "data-x": "1"}` turns
`<a class="old">t</a>` into `<a data-x="1">t</a>`. -/
theorem c9_set_attributes :
    (∀ (M : SelectorEngine) (html : JsVal) (toks : List Tok) (selector : String)
        (m : List (String × Option String)),
        setAttributes M html toks selector m ⟨false⟩
          = JsVal.str (serializeToks (toks.map (setAttrsTok M selector m))))
    ∧ setAttributes engByTag (JsVal.str "<a class=\"old\">t</a>")
        [Tok.element "a" [("class", "old")], Tok.textChunk "t", Tok.endTag "a"] "a"
        [("class", none), ("data-x", some "1")] ⟨false⟩ = JsVal.str "<a data-x=\"1\">t</a>" := by
  constructor
  · intro M html toks selector m
    unfold setAttributes runRewrite initRw
    rw [rw_setattrs_out M selector m toks false [] "" (by intro f hf; simp at hf)]
    rw [String.empty_append]
  · rfl

/-- Prefix run: over a stream with no selector matches, the dispatcher
emits everything verbatim and the handler state is untouched; frames
accumulated along the way stay trivial. -/
theorem rw_pre_run (M : SelectorEngine) (sel : String) (hstep : Bool → Bool × RwAction) :
    ∀ (toks : List Tok) (a : Bool) (fr : List (String × String)) (o : String),
      (toks.all (fun t => match t with
        | Tok.element tg ats => !(M sel tg ats)
        | _ => true) = true) →
      (∀ f ∈ fr, f = ("", "")) →
      ∃ fr', toks.foldl (rwStep M sel hstep) ⟨a, 0, fr, o⟩
               = ⟨a, 0, fr', o ++ serializeToks toks⟩
             ∧ (∀ f ∈ fr', f = ("", "")) := by
  intro toks
  induction toks with
  | nil =>
      intro a fr o hall h2
      exact ⟨fr, by simp [serializeToks, String.append_empty], h2⟩
  | cons t ts ih =>
      intro a fr o hall h2
      simp only [List.all_cons, Bool.and_eq_true] at hall
      have hall' := hall.2
      rw [List.foldl_cons]
      cases t with
      | element tag attrs =>
          have hm : M sel tag attrs = false := by
            simpa using hall.1
          have hstep1 : rwStep M sel hstep ⟨a, 0, fr, o⟩ (Tok.element tag attrs)
              = ⟨a, 0, if isVoid tag then fr else ("", "") :: fr, o ++ renderOpen tag attrs⟩ := by
            simp [rwStep, hm]
          have hfr : ∀ f ∈ (if isVoid tag then fr else ("", "") :: fr), f = ("", "") := by
            intro f hf
            cases hv : isVoid tag with
            | true =>
                rw [hv] at hf
                exact h2 f (by simpa using hf)
            | false =>
                rw [hv] at hf
                simp only [Bool.false_eq_true, if_false, List.mem_cons] at hf
                rcases hf with h | h
                · exact h
                · exact h2 f h
          obtain ⟨fr', heq, hp⟩ := ih a (if isVoid tag then fr else ("", "") :: fr)
            (o ++ renderOpen tag attrs) hall' hfr
          refine ⟨fr', ?_, hp⟩
          rw [hstep1, heq]
          simp [serializeToks, serializeTok, String.append_assoc]
      | endTag tag =>
          cases fr with
          | nil =>
              have hstep1 : rwStep M sel hstep ⟨a, 0, [], o⟩ (Tok.endTag tag)
                  = ⟨a, 0, [], o ++ "</" ++ tag ++ ">"⟩ := by
                simp [rwStep]
              obtain ⟨fr', heq, hp⟩ := ih a [] (o ++ "</" ++ tag ++ ">") hall'
                (by intro f hf; simp at hf)
              refine ⟨fr', ?_, hp⟩
              rw [hstep1, heq]
              simp [serializeToks, serializeTok, String.append_assoc]
          | cons f fs =>
              have hf0 : f = ("", "") := h2 f (by simp)
              have hfs : ∀ g ∈ fs, g = ("", "") := by
                intro g hg; exact h2 g (by simp [hg])
              have hstep1 : rwStep M sel hstep ⟨a, 0, f :: fs, o⟩ (Tok.endTag tag)
                  = ⟨a, 0, fs, o ++ "</" ++ tag ++ ">"⟩ := by
                simp [rwStep, hf0, String.append_empty]
              obtain ⟨fr', heq, hp⟩ := ih a fs (o ++ "</" ++ tag ++ ">") hall' hfs
              refine ⟨fr', ?_, hp⟩
              rw [hstep1, heq]
              simp [serializeToks, serializeTok, String.append_assoc]
      | textChunk s =>
          have hstep1 : rwStep M sel hstep ⟨a, 0, fr, o⟩ (Tok.textChunk s)
              = ⟨a, 0, fr, o ++ s⟩ := by
            simp [rwStep]
          obtain ⟨fr', heq, hp⟩ := ih a fr (o ++ s) hall' h2
          refine ⟨fr', ?_, hp⟩
          rw [hstep1, heq]
          simp [serializeToks, serializeTok, String.append_assoc]
      | comment s =>
          have hstep1 : rwStep M sel hstep ⟨a, 0, fr, o⟩ (Tok.comment s)
              = ⟨a, 0, fr, o ++ "<!--" ++ s ++ "-->"⟩ := by
            simp [rwStep]
          obtain ⟨fr', heq, hp⟩ := ih a fr (o ++ "<!--" ++ s ++ "-->") hall' h2
          refine ⟨fr', ?_, hp⟩
          rw [hstep1, heq]
          simp [serializeToks, serializeTok, String.append_assoc]

/-- Skip run: while the dispatcher is dropping a removed subtree, events
produce no output and leave frames untouched; when the subtree's closing
tag arrives the run continues on the remaining stream with the drop
ended.  The handler may keep firing on matches inside the dropped
subtree, but (for a handler that stays acted) only the acted flag is
threaded through, and it stays `true`. -/
theorem rw_skip_run (M : SelectorEngine) (sel : String) (hstep : Bool → Bool × RwAction)
    (hfst : (hstep true).1 = true) :
    ∀ (toks : List Tok) (n : Nat) (rest : List Tok) (fr : List (String × String)) (o : String),
      afterSkip (n + 1) toks = some rest →
      toks.foldl (rwStep M sel hstep) ⟨true, n + 1, fr, o⟩
        = rest.foldl (rwStep M sel hstep) ⟨true, 0, fr, o⟩ := by
  intro toks
  induction toks with
  | nil => intro n rest fr o h; simp [afterSkip] at h
  | cons t ts ih =>
      intro n rest fr o h
      rw [List.foldl_cons]
      cases t with
      | element tag attrs =>
          cases hv : isVoid tag with
          | true =>
              have hstep1 : rwStep M sel hstep ⟨true, n + 1, fr, o⟩ (Tok.element tag attrs)
                  = ⟨true, n + 1, fr, o⟩ := by
                cases hf : M sel tag attrs <;> simp [rwStep, hf, hfst, hv]
              rw [hstep1]
              simp only [afterSkip, hv, if_true] at h
              exact ih n rest fr o h
          | false =>
              have hstep1 : rwStep M sel hstep ⟨true, n + 1, fr, o⟩ (Tok.element tag attrs)
                  = ⟨true, n + 1 + 1, fr, o⟩ := by
                cases hf : M sel tag attrs <;> simp [rwStep, hf, hfst, hv]
              rw [hstep1]
              simp only [afterSkip, hv, Bool.false_eq_true, if_false] at h
              exact ih (n + 1) rest fr o h
      | endTag tag =>
          have hstep1 : rwStep M sel hstep ⟨true, n + 1, fr, o⟩ (Tok.endTag tag)
              = ⟨true, n, fr, o⟩ := by
            simp [rwStep]
          rw [hstep1]
          cases n with
          | zero =>
              simp only [afterSkip] at h
              simp at h
              rw [h]
          | succ k =>
              have hne : (k + 1 + 1 = 1) = False := eq_false (by omega)
              simp only [afterSkip, hne, if_false, Nat.add_sub_cancel] at h
              exact ih k rest fr o h
      | textChunk s =>
          have hstep1 : rwStep M sel hstep ⟨true, n + 1, fr, o⟩ (Tok.textChunk s)
              = ⟨true, n + 1, fr, o⟩ := by
            simp [rwStep]
          rw [hstep1]
          simp only [afterSkip] at h
          exact ih n rest fr o h
      | comment s =>
          have hstep1 : rwStep M sel hstep ⟨true, n + 1, fr, o⟩ (Tok.comment s)
              = ⟨true, n + 1, fr, o⟩ := by
            simp [rwStep]
          rw [hstep1]
          simp only [afterSkip] at h
          exact ih n rest fr o h

/-- No-op run: once a first-only handler has acted (its step returns the
acted flag and no action), the dispatcher emits the rest of the stream
verbatim. -/
theorem rw_noop_run (M : SelectorEngine) (sel : String) (hstep : Bool → Bool × RwAction)
    (hpass : hstep true = (true, RwAction.pass)) :
    ∀ (toks : List Tok) (fr : List (String × String)) (o : String),
      (∀ f ∈ fr, f = ("", "")) →
      (toks.foldl (rwStep M sel hstep) ⟨true, 0, fr, o⟩).out = o ++ serializeToks toks := by
  intro toks
  induction toks with
  | nil =>
      intro fr o h2
      simp [serializeToks, String.append_empty]
  | cons t ts ih =>
      intro fr o h2
      rw [List.foldl_cons]
      cases t with
      | element tag attrs =>
          have hstep1 : rwStep M sel hstep ⟨true, 0, fr, o⟩ (Tok.element tag attrs)
              = ⟨true, 0, if isVoid tag then fr else ("", "") :: fr, o ++ renderOpen tag attrs⟩ := by
            cases hf : M sel tag attrs <;> simp [rwStep, hf, hpass]
          have hfr : ∀ f ∈ (if isVoid tag then fr else ("", "") :: fr), f = ("", "") := by
            intro f hf
            cases hv : isVoid tag with
            | true =>
                rw [hv] at hf
                exact h2 f (by simpa using hf)
            | false =>
                rw [hv] at hf
                simp only [Bool.false_eq_true, if_false, List.mem_cons] at hf
                rcases hf with h | h
                · exact h
                · exact h2 f h
          rw [hstep1, ih _ _ hfr]
          simp [serializeToks, serializeTok, String.append_assoc]
      | endTag tag =>
          cases fr with
          | nil =>
              have hstep1 : rwStep M sel hstep ⟨true, 0, [], o⟩ (Tok.endTag tag)
                  = ⟨true, 0, [], o ++ "</" ++ tag ++ ">"⟩ := by
                simp [rwStep]
              rw [hstep1, ih _ _ (by intro f hf; simp at hf)]
              simp [serializeToks, serializeTok, String.append_assoc]
          | cons f fs =>
              have hf0 : f = ("", "") := h2 f (by simp)
              have hfs : ∀ g ∈ fs, g = ("", "") := by
                intro g hg; exact h2 g (by simp [hg])
              have hstep1 : rwStep M sel hstep ⟨true, 0, f :: fs, o⟩ (Tok.endTag tag)
                  = ⟨true, 0, fs, o ++ "</" ++ tag ++ ">"⟩ := by
                simp [rwStep, hf0, String.append_empty]
              rw [hstep1, ih _ _ hfs]
              simp [serializeToks, serializeTok, String.append_assoc]
      | textChunk s =>
          have hstep1 : rwStep M sel hstep ⟨true, 0, fr, o⟩ (Tok.textChunk s)
              = ⟨true, 0, fr, o ++ s⟩ := by
            simp [rwStep]
          rw [hstep1, ih _ _ h2]
          simp [serializeToks, serializeTok, String.append_assoc]
      | comment s =>
          have hstep1 : rwStep M sel hstep ⟨true, 0, fr, o⟩ (Tok.comment s)
              = ⟨true, 0, fr, o ++ "<!--" ++ s ++ "-->"⟩ := by
            simp [rwStep]
          rw [hstep1, ih _ _ h2]
          simp [serializeToks, serializeTok, String.append_assoc]

/-- C6: on a document with two or more matches, `deleteElements` with
`firstOnly` removes exactly the first match in document order, together
with its subtree, and emits everything before it and everything after
its closing tag verbatim — every later match is left unchanged.  The
handler's acted flag moves one way: after any match it is `true`, and
once acted the handler's step is a no-op (`pass`) that keeps the flag
set. -/
theorem c6_delete_first_only (M : SelectorEngine) (html : JsVal)
    (before mid after : List Tok) (tag : String) (attrs : List (String × String))
    (selector : String)
    (hpre : before.all (fun t => match t with
        | Tok.element tg ats => !(M selector tg ats)
        | _ => true) = true)
    (hmatch : M selector tag attrs = true)
    (hnv : isVoid tag = false)
    (hskip : afterSkip 1 mid = some after)
    (htwo : 2 ≤ (matchedOpens M selector (before ++ Tok.element tag attrs :: mid)).length) :
    deleteElements M html (before ++ Tok.element tag attrs :: mid) selector ⟨true⟩
      = JsVal.str (serializeToks before ++ serializeToks after)
    ∧ elementHandlerStep none true true = (true, RwAction.pass)
    ∧ (∀ acted : Bool, (elementHandlerStep none true acted).1 = true) := by
  refine ⟨?_, rfl, fun acted => by cases acted <;> rfl⟩
  unfold deleteElements runRewrite initRw
  rw [List.foldl_append]
  obtain ⟨fr1, heq, hfr1⟩ := rw_pre_run M selector (elementHandlerStep none true) before
    false [] "" hpre (by intro f hf; simp at hf)
  rw [heq, String.empty_append, List.foldl_cons]
  have hstep1 : rwStep M selector (elementHandlerStep none true)
        ⟨false, 0, fr1, serializeToks before⟩ (Tok.element tag attrs)
      = ⟨true, 0 + 1, fr1, serializeToks before⟩ := by
    simp [rwStep, hmatch, elementHandlerStep, hnv]
  rw [hstep1]
  rw [rw_skip_run M selector (elementHandlerStep none true) rfl mid 0 after fr1
    (serializeToks before) hskip]
  rw [show (JsVal.str (serializeToks before ++ serializeToks after))
      = JsVal.str ((serializeToks before) ++ serializeToks after) from rfl]
  exact congrArg JsVal.str
    (rw_noop_run M selector (elementHandlerStep none true) rfl after fr1
      (serializeToks before) hfr1)

/-- C6 witness: deleting `.x` with `firstOnly` on a document with two
`.x` paragraphs removes only the first. -/
theorem c6_delete_first_only_w :
    deleteElements engByClass (JsVal.str "<div><p class=\"x\">a</p><p class=\"x\">b</p></div>")
        [Tok.element "div" [], Tok.element "p" [("class", "x")], Tok.textChunk "a",
         Tok.endTag "p", Tok.element "p" [("class", "x")], Tok.textChunk "b",
         Tok.endTag "p", Tok.endTag "div"] ".x" ⟨true⟩
      = JsVal.str "<div><p class=\"x\">b</p></div>" :=
  (c6_delete_first_only engByClass
      (JsVal.str "<div><p class=\"x\">a</p><p class=\"x\">b</p></div>")
      [Tok.element "div" []]
      [Tok.textChunk "a", Tok.endTag "p", Tok.element "p" [("class", "x")],
       Tok.textChunk "b", Tok.endTag "p", Tok.endTag "div"]
      [Tok.element "p" [("class", "x")], Tok.textChunk "b", Tok.endTag "p", Tok.endTag "div"]
      "p" [("class", "x")] ".x" (by decide) (by decide) (by decide) (by decide) (by decide)).1
